import Mathlib

/-!
# SOLID.cpp: a coffee shop with polymorphic pricing, preparation and payment

A shallow embedding of `src/SOLID.cpp`.

* Prices (`basePrice`, the result of `getPrice`) are computed in exact rational arithmetic
  (`ℚ`), so `1.35` is `27/20` and a computed price is always a finite number.
* A `double` handed to a stream or to `pay` is a `Double`: a finite value, `-0.0`, an
  infinity or a NaN.  A finite value is printed from its exact value, as `printf` does.
* `std::string` is a list of characters; `size()` is the length of the list.
* `std::cout` is an explicit value `OStream` passed through every function that writes.
  It carries the characters written so far and the format state that the insertion of a
  string or of a `double` reads: the `floatfield` and `adjustfield` flags, `showpos`,
  `showpoint`, `uppercase`, the precision, the field width and the fill character.  All
  but the width are sticky; the width is reset to 0 by every insertion.  The stream is
  taken to be in good state with the classic locale (no insertion fails, the decimal point
  is `.` and digits are not grouped), and the `floatfield` value with both bits set
  (hexadecimal notation) is left out.
* Virtual dispatch is a tag on the object (`CoffeeClass`, the constructors of `Payment`).
* A C++ exception leaving a function is the `thrown` constructor of `Outcome`, which keeps
  the stream as it was when the exception was raised.
-/

namespace SOLID

/-! ## Strings and numbers -/

/-- A `std::string`: its characters in order. -/
abbrev CppString := List Char

/-- A value of type `double`: a finite number, negative zero, an infinity or a NaN (the
flag is the sign bit). -/
inductive Double where
  | finite (x : ℚ)
  | negZero
  | inf (negative : Bool)
  | nan (negative : Bool)
  deriving DecidableEq

/-- The sign bit of a `double`. -/
def Double.isNegative : Double → Bool
  | .finite x => decide (x < 0)
  | .negZero => true
  | .inf negative => negative
  | .nan negative => negative

/-- The `floatfield` flag of a stream: neither bit set, `fixed`, or `scientific`. -/
inductive FloatField where
  | general
  | fixed
  | scientific
  deriving DecidableEq, Repr

/-- The `adjustfield` flag of a stream: no bit set (which pads like `right`), `left`,
`right` or `internal`. -/
inductive AdjustField where
  | unset
  | left
  | right
  | internal
  deriving DecidableEq, Repr

/-! ### Decimal digits -/

/-- The character of the decimal digit `k`. -/
def digitChar (k : Nat) : Char := Char.ofNat (48 + k)

/-- The last `w` decimal digits of `n`, most significant first, zero padded. -/
def fixedDigits : Nat → Nat → List Char
  | 0, _ => []
  | w + 1, n => fixedDigits w (n / 10) ++ [digitChar (n % 10)]

/-- Worker of `natDigits`; the first argument bounds the number of digits. -/
def natDigitsAux : Nat → Nat → List Char
  | 0, _ => []
  | fuel + 1, n =>
    if n < 10 then [digitChar n] else natDigitsAux fuel (n / 10) ++ [digitChar (n % 10)]

/-- The decimal digits of `n` without leading zeros (`0` gives one digit). -/
def natDigits (n : Nat) : List Char := natDigitsAux (n + 1) n

/-- The integer nearest to `n / d`, a tie going to the even neighbour
(the rounding `printf` applies to the exact value of its argument). -/
def roundHalfEven (n d : Nat) : Nat :=
  let q := n / d
  let r := n % d
  if 2 * r < d then q
  else if d < 2 * r then q + 1
  else if q % 2 = 0 then q else q + 1

/-! ### The text of a `double` -/

/-- The sign printed in front of a number: `-` when the sign bit is set, `+` for any
other number under `showpos`, nothing otherwise. -/
def signChars (showpos negative : Bool) : List Char :=
  if negative then ['-'] else if showpos then ['+'] else []

/-- The magnitude of `x` scaled by `10 ^ prec` and rounded to an integer. -/
def fixedMantissa (prec : Nat) (x : ℚ) : Nat :=
  roundHalfEven (x.num.natAbs * 10 ^ prec) x.den

/-- The decimal point and `prec` fraction digits of the scaled value `m`; for precision
`0` the point is written under `showpoint` only. -/
def fracChars (prec : Nat) (showpoint : Bool) (m : Nat) : List Char :=
  if prec = 0 ∧ showpoint = false then [] else '.' :: fixedDigits prec m

/-- The conversion `%.{prec}f` of a magnitude: integer part, and `prec` digits after the
point. -/
def fixedBody (prec : Nat) (showpoint : Bool) (x : ℚ) : List Char :=
  let m := fixedMantissa prec x
  natDigits (m / 10 ^ prec) ++ fracChars prec showpoint m

/-- The least `k` at or after the given one with `d ≤ n * 10 ^ k`, searched for
at most `fuel` steps. -/
def leastScale : Nat → Nat → Nat → Nat → Nat
  | 0, _, _, k => k
  | fuel + 1, n, d, k => if d ≤ n * 10 ^ k then k else leastScale fuel n d (k + 1)

/-- The decimal exponent of `n / d`: the `e` with `10 ^ e ≤ n / d < 10 ^ (e + 1)`;
`0` when `n = 0`. -/
def decExponent (n d : Nat) : Int :=
  if n = 0 then 0
  else if d ≤ n then ((natDigits (n / d)).length : Int) - 1
  else - (leastScale d n d 0 : Int)

/-- The `prec + 1` significant digits of `n / d` as an integer, and the decimal exponent
of the rounded value (rounding may carry into one more digit, which raises the exponent). -/
def sciParts (prec n d : Nat) : Nat × Int :=
  let e := decExponent n d
  let sh : Int := (prec : Int) - e
  let m := if 0 ≤ sh then roundHalfEven (n * 10 ^ sh.toNat) d
           else roundHalfEven n (d * 10 ^ (-sh).toNat)
  if 10 ^ (prec + 1) ≤ m then (m / 10, e + 1) else (m, e)

/-- The exponent suffix: `e` (`E` under `uppercase`), a sign, and at least two digits. -/
def expChars (uppercase : Bool) (e : Int) : List Char :=
  (if uppercase then 'E' else 'e') :: (if e < 0 then '-' else '+') ::
    (if e.natAbs < 10 then '0' :: natDigits e.natAbs else natDigits e.natAbs)

/-- The conversion `%.{prec}e` of a magnitude. -/
def scientificBody (prec : Nat) (showpoint uppercase : Bool) (x : ℚ) : List Char :=
  let me := sciParts prec x.num.natAbs x.den
  natDigits (me.1 / 10 ^ prec) ++ fracChars prec showpoint me.1 ++ expChars uppercase me.2

/-- Drops the zeros at the end of a digit string. -/
def stripZeros (ds : List Char) : List Char :=
  (ds.reverse.dropWhile (fun c => c == '0')).reverse

/-- The fraction part of `%g`: under `showpoint` the point and all `prec` digits;
otherwise trailing zeros are removed, and the point with them when no digit is left. -/
def fracCharsGeneral (prec : Nat) (showpoint : Bool) (m : Nat) : List Char :=
  if showpoint then '.' :: fixedDigits prec m
  else
    let ds := stripZeros (fixedDigits prec m)
    if ds = [] then [] else '.' :: ds

/-- The conversion `%.{prec}g` of a magnitude: with `P` significant digits (`P = 1` for
precision `0`) and `e` the decimal exponent of the rounded value, style `f` with
`P - 1 - e` fraction digits when `-4 ≤ e < P` and style `e` with `P - 1` otherwise. -/
def generalBody (prec : Nat) (showpoint uppercase : Bool) (x : ℚ) : List Char :=
  let P := if prec = 0 then 1 else prec
  let me := sciParts (P - 1) x.num.natAbs x.den
  if -4 ≤ me.2 ∧ me.2 < (P : Int) then
    let fp := ((P : Int) - 1 - me.2).toNat
    let mf := fixedMantissa fp x
    natDigits (mf / 10 ^ fp) ++ fracCharsGeneral fp showpoint mf
  else
    natDigits (me.1 / 10 ^ (P - 1)) ++ fracCharsGeneral (P - 1) showpoint me.1
      ++ expChars uppercase me.2

/-- The text of the magnitude of a finite number under a `floatfield` flag. -/
def finiteBody (ff : FloatField) (prec : Nat) (showpoint uppercase : Bool) (x : ℚ) :
    List Char :=
  match ff with
  | .general => generalBody prec showpoint uppercase x
  | .fixed => fixedBody prec showpoint x
  | .scientific => scientificBody prec showpoint uppercase x

/-- The text of a `double` after its sign: digits for a finite value, `inf` or `nan`
(in capitals under `uppercase`) otherwise. -/
def doubleBody (ff : FloatField) (prec : Nat) (showpoint uppercase : Bool) :
    Double → List Char
  | .finite x => finiteBody ff prec showpoint uppercase x
  | .negZero => finiteBody ff prec showpoint uppercase 0
  | .inf _ => if uppercase then "INF".toList else "inf".toList
  | .nan _ => if uppercase then "NAN".toList else "nan".toList

/-- The text of a `double` when no field width is pending: its sign and its body. -/
def doubleText (ff : FloatField) (prec : Nat) (showpos showpoint uppercase : Bool)
    (x : Double) : List Char :=
  signChars showpos x.isNegative ++ doubleBody ff prec showpoint uppercase x

/-! ### Padding to the field width -/

/-- A string padded to the field width with the fill character: after the string under
`left`, before it otherwise. -/
def padText (width : Nat) (fill : Char) (adjust : AdjustField) (s : List Char) :
    List Char :=
  let pad := List.replicate (width - s.length) fill
  match adjust with
  | .left => s ++ pad
  | _ => pad ++ s

/-- A number padded to the field width: after the number under `left`, between sign and
body under `internal`, before the sign otherwise. -/
def padNumber (width : Nat) (fill : Char) (adjust : AdjustField) (sign body : List Char) :
    List Char :=
  let pad := List.replicate (width - (sign.length + body.length)) fill
  match adjust with
  | .left => sign ++ body ++ pad
  | .internal => sign ++ pad ++ body
  | _ => pad ++ sign ++ body

/-! ## The output stream -/

/-- The state of `std::cout`: the characters written so far, and the format state that
the insertion of a string or of a `double` reads. -/
structure OStream where
  out : List Char
  floatfield : FloatField
  precision : Nat
  showpos : Bool
  showpoint : Bool
  uppercase : Bool
  adjustfield : AdjustField
  width : Nat
  fill : Char
  deriving DecidableEq, Repr

/-- The stream `cout` at program start: nothing written, no format flag set, precision 6,
width 0, fill character space. -/
def coutInit : OStream :=
  ⟨[], FloatField.general, 6, false, false, false, AdjustField.unset, 0, ' '⟩

/-- Writing a string, `os << s`: the string is padded to the field width, and the width is
reset. -/
def OStream.put (os : OStream) (s : CppString) : OStream :=
  { os with out := os.out ++ padText os.width os.fill os.adjustfield s, width := 0 }

/-- The manipulator `os << fixed`. -/
def OStream.fixed (os : OStream) : OStream :=
  { os with floatfield := FloatField.fixed }

/-- The manipulator `os << setprecision(n)`. -/
def OStream.setprecision (os : OStream) (n : Nat) : OStream :=
  { os with precision := n }

/-- Writing a `double`, `os << x`, under the format state of the stream: the number is
padded to the field width, and the width is reset. -/
def OStream.putDouble (os : OStream) (x : Double) : OStream :=
  { os with
    out := os.out ++ padNumber os.width os.fill os.adjustfield
      (signChars os.showpos x.isNegative)
      (doubleBody os.floatfield os.precision os.showpoint os.uppercase x),
    width := 0 }

/-- The exceptions the program can raise. -/
inductive Exception where
  | out_of_range
  deriving DecidableEq, Repr

/-- How a call that writes to `cout` ends: it returns, or an exception leaves it;
either way the stream is in the state reached by then. -/
inductive Outcome where
  | returned (os : OStream)
  | thrown (e : Exception) (os : OStream)
  deriving DecidableEq, Repr

/-- The stream at the end of a call. -/
def Outcome.stream : Outcome → OStream
  | .returned os => os
  | .thrown _ os => os

/-- Whether the call returned normally. -/
def Outcome.completed : Outcome → Bool
  | .returned _ => true
  | .thrown _ _ => false

/-- The number of values of `size_t` (64 bits). -/
def SIZE_MODULUS : Nat := 2 ^ 64

/-- Subtraction of two `size_t` values `a - b`, which wraps around below zero: for
operands in range it is `(a + 2^64 - b) mod 2^64` (see `sizeSub_eq_mod`). -/
def sizeSub (a b : Nat) : Nat := if b ≤ a then a - b else a + SIZE_MODULUS - b

/-- The call `s.substr(pos)`: the characters from `pos` to the end, and `out_of_range`
when `pos > s.size()`. -/
def substr (s : CppString) (pos : Nat) : Except Exception CppString :=
  if s.length < pos then .error Exception.out_of_range else .ok (s.drop pos)

/-! ## The program -/

/-- The enumeration `Size`. -/
inductive Size where
  | SMALL
  | MEDIUM
  | LARGE
  deriving DecidableEq, Repr

/-- The helper `sizeToString`; its `default` branch needs a value outside the enumeration. -/
def sizeToString : Size → CppString
  | .SMALL => "Small".toList
  | .MEDIUM => "Medium".toList
  | .LARGE => "Large".toList

/-- The dynamic type of a coffee object, which selects the `prepare` that runs. -/
inductive CoffeeClass where
  | Coffee
  | Espresso
  | Latte
  deriving DecidableEq, Repr

/-- An object of class `Coffee` or of one of its subclasses. -/
structure Coffee where
  cls : CoffeeClass
  name : CppString
  basePrice : ℚ
  size : Size
  deriving DecidableEq

/-- The constructor `Coffee(n, p, s)`. -/
def Coffee.new (n : CppString) (p : ℚ) (s : Size) : Coffee := ⟨CoffeeClass.Coffee, n, p, s⟩

/-- The constructor `Espresso(p)`: no size parameter, the base is built with `SMALL`. -/
def Espresso (p : ℚ) : Coffee := ⟨CoffeeClass.Espresso, "Espresso".toList, p, Size.SMALL⟩

/-- The constructor `Latte(p, s)`. -/
def Latte (p : ℚ) (s : Size) : Coffee := ⟨CoffeeClass.Latte, "Latte".toList, p, s⟩

/-- The call `Latte(p)`, in which the default argument `s = MEDIUM` is filled in. -/
def LatteDefault (p : ℚ) : Coffee := Latte p Size.MEDIUM

/-- The getter `getName`. -/
def Coffee.getName (c : Coffee) : CppString := c.name

/-- The getter `getSize`. -/
def Coffee.getSize (c : Coffee) : Size := c.size

/-- The method `Coffee::getPrice`, which no subclass overrides. -/
def Coffee.getPrice (c : Coffee) : ℚ :=
  let multiplier : ℚ :=
    match c.size with
    | .SMALL => 1.0
    | .MEDIUM => 1.35
    | .LARGE => 1.5
  c.basePrice * multiplier

/-- The method `prepare`, dispatched on the dynamic type. -/
def Coffee.prepare (c : Coffee) (os : OStream) : OStream :=
  match c.cls with
  | .Coffee =>
    ((((os.put "Preparing a ".toList).put (sizeToString c.size)).put " ".toList).put c.name).put
      "...\n".toList
  | .Espresso =>
    ((os.put "Grinding coffee beans...\n".toList).put "Brewing a shot of espresso...\n".toList).put
      "Pouring into a small cup.\n".toList
  | .Latte =>
    ((((((os.put "Steaming milk...\n".toList).put "Grinding coffee beans...\n".toList).put
      "Brewing a shot of espresso...\n".toList).put
      "Combining espresso with milk and adding foam.\n".toList).put
      "Pouring into a ".toList).put (sizeToString c.size)).put " cup.\n".toList

/-- An object of a subclass of `Payment`; `CardPayment` holds its card number. -/
inductive Payment where
  | CashPayment
  | CardPayment (cardNumber : CppString)
  deriving DecidableEq

/-- The method `CashPayment::pay`. -/
def CashPayment.pay (amount : Double) (os : OStream) : Outcome :=
  Outcome.returned (((((os.put "Paid $".toList).fixed).setprecision 2).putDouble amount).put
    " in cash\n".toList)

/-- The method `CardPayment::pay`.  The operands of the `<<` chain are evaluated and
written left to right, so everything before the suffix is on the stream when `substr` is
called. -/
def CardPayment.pay (cardNumber : CppString) (amount : Double) (os : OStream) : Outcome :=
  let os1 := ((((os.put "Charged $".toList).fixed).setprecision 2).putDouble amount).put
    " to card ending with ".toList
  match substr cardNumber (sizeSub cardNumber.length 4) with
  | Except.error e => Outcome.thrown e os1
  | Except.ok suffix => Outcome.returned ((os1.put suffix).put "\n".toList)

/-- The virtual call `paymentMethod->pay(amount)`, dispatched on the dynamic type. -/
def Payment.pay (pm : Payment) (amount : Double) (os : OStream) : Outcome :=
  match pm with
  | .CashPayment => CashPayment.pay amount os
  | .CardPayment cardNumber => CardPayment.pay cardNumber amount os

/-- An object of class `CoffeeShop`: its name and the payment method it points to. -/
structure CoffeeShop where
  shopName : CppString
  paymentMethod : Payment
  deriving DecidableEq

/-- The method `CoffeeShop::orderCoffee`; the price it prints and passes on is the finite
number `getPrice()` computes.  An exception raised by `pay` is not caught, so it leaves
`orderCoffee` before the closing line is written. -/
def CoffeeShop.orderCoffee (shop : CoffeeShop) (coffee : Coffee) (os : OStream) : Outcome :=
  let os1 := ((os.put "Welcome to ".toList).put shop.shopName).put "!\n".toList
  let os2 := ((((((os1.put "Order: ".toList).put (sizeToString coffee.getSize)).put
    " ".toList).put coffee.getName).put " - $".toList).putDouble
    (Double.finite coffee.getPrice)).put "\n".toList
  let os3 := coffee.prepare os2
  match shop.paymentMethod.pay (Double.finite coffee.getPrice) os3 with
  | .thrown e os4 => .thrown e os4
  | .returned os4 => .returned (os4.put "Thank you for your purchase!\n\n".toList)

/-- The function `main`: two orders, one after the other, on the same `cout`. -/
def main : Outcome :=
  let yeOldeEspresso := Espresso 2.0
  let yeNewLatte := LatteDefault 3.0
  let cash := Payment.CashPayment
  let card := Payment.CardPayment "1277448787638764".toList
  let oldShop : CoffeeShop := ⟨"Ye Olde Coffee".toList, cash⟩
  let newShop : CoffeeShop := ⟨"Ye New Coffee".toList, card⟩
  match oldShop.orderCoffee yeOldeEspresso coutInit with
  | .thrown e os => .thrown e os
  | .returned os => newShop.orderCoffee yeNewLatte os

/-! ## Reading text back -/

/-- The number a string of decimal digits denotes. -/
def digitsValue (ds : List Char) : Nat :=
  ds.foldl (fun acc c => 10 * acc + (c.toNat - 48)) 0

/-- A list of lines as text: every line followed by a newline. -/
def joinLines : List CppString → List Char
  | [] => []
  | l :: ls => l ++ '\n' :: joinLines ls

/-- The lines of a text: the pieces between newline characters, empty pieces included. -/
def splitLines : List Char → List CppString
  | [] => [[]]
  | c :: cs =>
    if c = '\n' then [] :: splitLines cs
    else
      match splitLines cs with
      | [] => [[c]]
      | l :: ls => (c :: l) :: ls

/-- The non-empty lines of a text, in order. -/
def nonEmptyLines (text : List Char) : List CppString :=
  (splitLines text).filter (fun l => !l.isEmpty)

/-! ## Definitions that follow the specification -/

/-- The multiplier map as the specification gives it: Small 1.0, Medium 1.35, Large 1.5,
written as exact fractions. -/
def specMultiplier : Size → ℚ
  | .SMALL => 1
  | .MEDIUM => 27 / 20
  | .LARGE => 3 / 2

/-- The welcome line, which names the shop; a field width pending on the stream pads its
first piece. -/
def welcomeLine (os : OStream) (shopName : CppString) : CppString :=
  padText os.width os.fill os.adjustfield "Welcome to ".toList ++ shopName ++ "!".toList

/-- The order summary line: size label, coffee name, and the price as the stream formats
a `double` in the state it has when the order starts. -/
def summaryLine (coffee : Coffee) (os : OStream) : CppString :=
  "Order: ".toList ++ sizeToString coffee.getSize ++ " ".toList ++ coffee.getName ++
    " - $".toList ++
    doubleText os.floatfield os.precision os.showpos os.showpoint os.uppercase
      (Double.finite coffee.getPrice)

/-- The three preparation lines of an espresso. -/
def espressoSteps : List CppString :=
  ["Grinding coffee beans...".toList, "Brewing a shot of espresso...".toList,
   "Pouring into a small cup.".toList]

/-- The five preparation lines of a latte of size `s`. -/
def latteSteps (s : Size) : List CppString :=
  ["Steaming milk...".toList, "Grinding coffee beans...".toList,
   "Brewing a shot of espresso...".toList,
   "Combining espresso with milk and adding foam.".toList,
   "Pouring into a ".toList ++ sizeToString s ++ " cup.".toList]

/-- The amount of a settlement confirmation: fixed notation with precision 2, under the
`showpos`, `showpoint` and `uppercase` flags of the stream. -/
def amountText (os : OStream) (amount : Double) : List Char :=
  doubleText FloatField.fixed 2 os.showpos os.showpoint os.uppercase amount

/-- The settlement confirmation line for an amount, written with no field width pending:
the amount with 2 decimals, and for a card the last four characters of its number. -/
def confirmationLine (pm : Payment) (os : OStream) (amount : Double) : CppString :=
  match pm with
  | .CashPayment => "Paid $".toList ++ amountText os amount ++ " in cash".toList
  | .CardPayment cardNumber =>
    "Charged $".toList ++ amountText os amount ++ " to card ending with ".toList ++
      cardNumber.drop (cardNumber.length - 4)

/-- The thank-you line. -/
def thanksLine : CppString := "Thank you for your purchase!".toList

/-- The lines of one order in the order the specification lists them: welcome, summary,
the preparation steps, settlement confirmation, thanks. -/
def orderLines (shop : CoffeeShop) (coffee : Coffee) (steps : List CppString)
    (os : OStream) : List CppString :=
  [welcomeLine os shop.shopName, summaryLine coffee os] ++ steps ++
    [confirmationLine shop.paymentMethod os (Double.finite coffee.getPrice), thanksLine]

/-! ## Pricing and construction -/

/-- C1: `getPrice` is the base price times the multiplier of the size, the multipliers
being exactly 1, 27/20 and 3/2; `Espresso(2.00)` costs 2.00 and `Latte(3.00)` with the
default size costs 4.05. -/
theorem getPrice_eq_basePrice_mul_multiplier (c : Coffee) :
    c.getPrice = c.basePrice * specMultiplier c.size ∧
    (Espresso 2.00).getPrice = 2.00 ∧
    (LatteDefault 3.00).getPrice = 4.05 := by
  refine ⟨?_, ?_, ?_⟩
  · cases c with
    | mk cls name basePrice size =>
      cases size <;> simp only [Coffee.getPrice, specMultiplier] <;> norm_num
  · simp only [Coffee.getPrice, Espresso]; norm_num
  · simp only [Coffee.getPrice, LatteDefault, Latte]; norm_num

/-- C5: an `Espresso` built from any base price has size `SMALL`, and its price is its
base price. -/
theorem espresso_size_small (p : ℚ) :
    (Espresso p).getSize = Size.SMALL ∧ (Espresso p).getPrice = p := by
  constructor
  · rfl
  · simp only [Coffee.getPrice, Espresso]; norm_num

/-- C6: a `Latte` built without a size argument has size `MEDIUM` and name "Latte", and a
`Latte` built with size `s` has size `s`. -/
theorem latte_size (p : ℚ) (s : Size) :
    (LatteDefault p).getSize = Size.MEDIUM ∧
    (LatteDefault p).getName = "Latte".toList ∧
    (Latte p s).getSize = s :=
  ⟨rfl, rfl, rfl⟩

/-- C8, as the claim states it, fails: `Espresso(-1.0)` is accepted by the constructor and
its price is negative. -/
theorem getPrice_negative_example : ¬ (0 ≤ (Espresso (-1.0)).getPrice) := by
  simp only [Coffee.getPrice, Espresso]; norm_num

/-- C8, amended: a coffee whose base price is non-negative has a non-negative price;
this covers `Espresso(p)` and `Latte(p, s)` for every `p ≥ 0` and every size. -/
theorem getPrice_nonneg (c : Coffee) (h : 0 ≤ c.basePrice) : 0 ≤ c.getPrice := by
  cases c with
  | mk cls name basePrice size =>
    simp only at h
    cases size <;> simp only [Coffee.getPrice] <;> nlinarith

/-- C8, amended, at `Latte(3.00, LARGE)`. -/
theorem getPrice_nonneg_witness :
    0 ≤ (Latte 3.00 Size.LARGE).basePrice ∧ 0 ≤ (Latte 3.00 Size.LARGE).getPrice :=
  ⟨by simp only [Latte]; norm_num,
   getPrice_nonneg (Latte 3.00 Size.LARGE) (by simp only [Latte]; norm_num)⟩

/-! ## Digits and rounding -/

theorem digitChar_isDigit (k : Nat) (h : k < 10) : (digitChar k).isDigit = true := by
  interval_cases k <;> decide

theorem digitChar_value (k : Nat) (h : k < 10) : (digitChar k).toNat - 48 = k := by
  interval_cases k <;> decide

theorem natDigitsAux_isDigit (fuel n : Nat) : ∀ c ∈ natDigitsAux fuel n, c.isDigit = true := by
  induction fuel generalizing n with
  | zero => intro c hc; simp [natDigitsAux] at hc
  | succ fuel ih =>
    intro c hc
    unfold natDigitsAux at hc
    split at hc
    · rename_i hlt
      simp only [List.mem_singleton] at hc
      subst hc
      exact digitChar_isDigit n hlt
    · rcases List.mem_append.mp hc with h | h
      · exact ih _ c h
      · simp only [List.mem_singleton] at h
        subst h
        exact digitChar_isDigit _ (Nat.mod_lt _ (by norm_num))

theorem natDigits_isDigit (n : Nat) : ∀ c ∈ natDigits n, c.isDigit = true :=
  natDigitsAux_isDigit (n + 1) n

theorem natDigits_ne_nil (n : Nat) : natDigits n ≠ [] := by
  unfold natDigits natDigitsAux
  split <;> simp

theorem digitsValue_append_singleton (l : List Char) (c : Char) :
    digitsValue (l ++ [c]) = 10 * digitsValue l + (c.toNat - 48) := by
  simp [digitsValue, List.foldl_append]

theorem digitsValue_natDigitsAux (fuel n : Nat) (h : n < fuel) :
    digitsValue (natDigitsAux fuel n) = n := by
  induction fuel generalizing n with
  | zero => omega
  | succ fuel ih =>
    unfold natDigitsAux
    split
    · rename_i hlt
      have := digitsValue_append_singleton [] (digitChar n)
      simp only [List.nil_append] at this
      rw [this, digitChar_value n hlt]
      simp [digitsValue]
    · rw [digitsValue_append_singleton, ih (n / 10) (by omega),
        digitChar_value _ (Nat.mod_lt _ (by norm_num))]
      omega

theorem digitsValue_natDigits (n : Nat) : digitsValue (natDigits n) = n :=
  digitsValue_natDigitsAux (n + 1) n (Nat.lt_succ_self n)

theorem fixedDigits_two (m : Nat) :
    fixedDigits 2 m = [digitChar (m / 10 % 10), digitChar (m % 10)] := by
  simp [fixedDigits]

theorem roundHalfEven_close (n d : Nat) (hd : 0 < d) :
    2 * n ≤ 2 * (roundHalfEven n d * d) + d ∧ 2 * (roundHalfEven n d * d) ≤ 2 * n + d := by
  have hdm := Nat.div_add_mod n d
  have hr := Nat.mod_lt n hd
  have hmul : (n / d + 1) * d = d * (n / d) + d := by ring
  have hmul0 : (n / d) * d = d * (n / d) := by ring
  unfold roundHalfEven
  simp only
  split
  · rw [hmul0]; omega
  · split
    · rw [hmul]; omega
    · split
      · rw [hmul0]; omega
      · rw [hmul]; omega

theorem fixedMantissa_close (prec : Nat) (x : ℚ) :
    |(|x| * 10 ^ prec - (fixedMantissa prec x : ℚ))| ≤ 1 / 2 := by
  have hd : 0 < x.den := x.den_pos
  have hdq : (0 : ℚ) < (x.den : ℚ) := by exact_mod_cast hd
  obtain ⟨h1, h2⟩ := roundHalfEven_close (x.num.natAbs * 10 ^ prec) x.den hd
  have habs : |x| = (x.num.natAbs : ℚ) / (x.den : ℚ) := by
    conv_lhs => rw [← Rat.num_div_den x]
    rw [abs_div, Nat.abs_cast, Nat.cast_natAbs, Int.cast_abs]
  unfold fixedMantissa
  set m := roundHalfEven (x.num.natAbs * 10 ^ prec) x.den with hm
  have h1q : (2 : ℚ) * ((x.num.natAbs : ℚ) * 10 ^ prec) ≤ 2 * ((m : ℚ) * x.den) + x.den := by
    exact_mod_cast h1
  have h2q : (2 : ℚ) * ((m : ℚ) * x.den) ≤ 2 * ((x.num.natAbs : ℚ) * 10 ^ prec) + x.den := by
    exact_mod_cast h2
  rw [habs, abs_le]
  constructor
  · rw [div_mul_eq_mul_div, le_sub_iff_add_le, le_div_iff₀ hdq]
    nlinarith
  · rw [div_mul_eq_mul_div, sub_le_iff_le_add, div_le_iff₀ hdq]
    nlinarith

/-! ## Unsigned subtraction -/

theorem sizeSub_eq_mod (a b : Nat) (ha : a < SIZE_MODULUS) (hb : b < SIZE_MODULUS) :
    sizeSub a b = (a + SIZE_MODULUS - b) % SIZE_MODULUS := by
  unfold sizeSub
  unfold SIZE_MODULUS at *
  split <;> omega

theorem sizeSub_four_of_lt (a : Nat) (h : a < 4) : sizeSub a 4 = a + SIZE_MODULUS - 4 := by
  unfold sizeSub
  rw [if_neg (by omega)]

theorem sizeSub_four_of_le (a : Nat) (h4 : 4 ≤ a) : sizeSub a 4 = a - 4 := by
  unfold sizeSub
  rw [if_pos h4]

theorem length_lt_sizeSub_four_iff (a : Nat) : a < sizeSub a 4 ↔ a < 4 := by
  unfold sizeSub SIZE_MODULUS
  split <;> omega

/-! ## Padding -/

theorem padText_zero (fill : Char) (adjust : AdjustField) (s : List Char) :
    padText 0 fill adjust s = s := by
  cases adjust <;> simp [padText]

theorem padNumber_zero (fill : Char) (adjust : AdjustField) (sign body : List Char) :
    padNumber 0 fill adjust sign body = sign ++ body := by
  cases adjust <;> simp [padNumber]

theorem padText_eq (width : Nat) (fill : Char) (adjust : AdjustField) (s : List Char) :
    padText width fill adjust s =
      if adjust = AdjustField.left then s ++ List.replicate (width - s.length) fill
      else List.replicate (width - s.length) fill ++ s := by
  cases adjust <;> simp [padText]

theorem pad_paid (width : Nat) (fill : Char) (adjust : AdjustField) :
    (if adjust = AdjustField.left then "Paid $".toList ++ List.replicate (width - 6) fill
      else List.replicate (width - 6) fill ++ "Paid $".toList) =
      padText width fill adjust "Paid $".toList := by
  rw [padText_eq]; rfl

theorem pad_charged (width : Nat) (fill : Char) (adjust : AdjustField) :
    (if adjust = AdjustField.left then "Charged $".toList ++ List.replicate (width - 9) fill
      else List.replicate (width - 9) fill ++ "Charged $".toList) =
      padText width fill adjust "Charged $".toList := by
  rw [padText_eq]; rfl

/-! ## Lines of text -/

theorem splitLines_append_newline (l rest : List Char) (h : '\n' ∉ l) :
    splitLines (l ++ '\n' :: rest) = l :: splitLines rest := by
  induction l with
  | nil => simp [splitLines]
  | cons c l ih =>
    have hc : c ≠ '\n' := fun e => h (by simp [e])
    have hl : '\n' ∉ l := fun e => h (List.mem_cons_of_mem _ e)
    simp [splitLines, hc, ih hl]

theorem nonEmptyLines_joinLines (ls : List CppString)
    (h : ∀ l ∈ ls, l ≠ [] ∧ '\n' ∉ l) :
    nonEmptyLines (joinLines ls ++ ['\n']) = ls := by
  induction ls with
  | nil => simp [nonEmptyLines, joinLines, splitLines]
  | cons l ls ih =>
    obtain ⟨hne, hnl⟩ := h l (List.mem_cons_self _ _)
    have ih := ih (fun m hm => h m (List.mem_cons_of_mem _ hm))
    unfold nonEmptyLines at ih ⊢
    have : joinLines (l :: ls) ++ ['\n'] = l ++ '\n' :: (joinLines ls ++ ['\n']) := by
      simp [joinLines]
    rw [this, splitLines_append_newline _ _ hnl, List.filter_cons, ih]
    cases l with
    | nil => exact absurd rfl hne
    | cons c l => simp

theorem joinLines_append (xs ys : List CppString) :
    joinLines (xs ++ ys) = joinLines xs ++ joinLines ys := by
  induction xs with
  | nil => rfl
  | cons x xs ih => simp [joinLines, ih]

/-! ## Characters of a formatted number -/

theorem isDigit_ne_newline (c : Char) (h : c.isDigit = true) : c ≠ '\n' := by
  rintro rfl
  revert h
  decide

theorem fixedDigits_isDigit (w n : Nat) : ∀ c ∈ fixedDigits w n, c.isDigit = true := by
  induction w generalizing n with
  | zero => intro c hc; simp [fixedDigits] at hc
  | succ w ih =>
    intro c hc
    unfold fixedDigits at hc
    rcases List.mem_append.mp hc with h | h
    · exact ih _ c h
    · simp only [List.mem_singleton] at h
      subst h
      exact digitChar_isDigit _ (Nat.mod_lt _ (by norm_num))

theorem signChars_no_newline (showpos negative : Bool) :
    ∀ c ∈ signChars showpos negative, c ≠ '\n' := by
  cases showpos <;> cases negative <;> decide

theorem natDigits_no_newline (n : Nat) : ∀ c ∈ natDigits n, c ≠ '\n' :=
  fun c hc => isDigit_ne_newline c (natDigits_isDigit n c hc)

theorem fracChars_no_newline (prec : Nat) (showpoint : Bool) (m : Nat) :
    ∀ c ∈ fracChars prec showpoint m, c ≠ '\n' := by
  intro c hc
  unfold fracChars at hc
  split at hc
  · simp at hc
  · rcases List.mem_cons.mp hc with h | h
    · subst h; decide
    · exact isDigit_ne_newline c (fixedDigits_isDigit _ _ c h)

theorem stripZeros_subset (ds : List Char) : ∀ c ∈ stripZeros ds, c ∈ ds := by
  intro c hc
  unfold stripZeros at hc
  rw [List.mem_reverse] at hc
  exact List.mem_reverse.mp ((List.dropWhile_sublist _).subset hc)

theorem fracCharsGeneral_no_newline (prec : Nat) (showpoint : Bool) (m : Nat) :
    ∀ c ∈ fracCharsGeneral prec showpoint m, c ≠ '\n' := by
  intro c hc
  unfold fracCharsGeneral at hc
  split at hc
  · rcases List.mem_cons.mp hc with h | h
    · subst h; decide
    · exact isDigit_ne_newline c (fixedDigits_isDigit _ _ c h)
  · simp only at hc
    split at hc
    · simp at hc
    · rcases List.mem_cons.mp hc with h | h
      · subst h; decide
      · exact isDigit_ne_newline c (fixedDigits_isDigit _ _ c (stripZeros_subset _ c h))

theorem expChars_no_newline (uppercase : Bool) (e : Int) :
    ∀ c ∈ expChars uppercase e, c ≠ '\n' := by
  intro c hc
  unfold expChars at hc
  rcases List.mem_cons.mp hc with h | hc
  · subst h; cases uppercase <;> decide
  rcases List.mem_cons.mp hc with h | hc
  · subst h; split <;> decide
  split at hc
  · rcases List.mem_cons.mp hc with h | h
    · subst h; decide
    · exact natDigits_no_newline _ c h
  · exact natDigits_no_newline _ c hc

theorem fixedBody_no_newline (prec : Nat) (showpoint : Bool) (x : ℚ) :
    ∀ c ∈ fixedBody prec showpoint x, c ≠ '\n' := by
  intro c hc
  unfold fixedBody at hc
  rcases List.mem_append.mp hc with h | h
  · exact natDigits_no_newline _ c h
  · exact fracChars_no_newline _ _ _ c h

theorem scientificBody_no_newline (prec : Nat) (showpoint uppercase : Bool) (x : ℚ) :
    ∀ c ∈ scientificBody prec showpoint uppercase x, c ≠ '\n' := by
  intro c hc
  unfold scientificBody at hc
  rcases List.mem_append.mp hc with h | h
  · rcases List.mem_append.mp h with h | h
    · exact natDigits_no_newline _ c h
    · exact fracChars_no_newline _ _ _ c h
  · exact expChars_no_newline _ _ c h

theorem generalBody_no_newline (prec : Nat) (showpoint uppercase : Bool) (x : ℚ) :
    ∀ c ∈ generalBody prec showpoint uppercase x, c ≠ '\n' := by
  intro c hc
  unfold generalBody at hc
  simp only at hc
  generalize (if prec = 0 then 1 else prec) = P at hc
  split at hc
  · rcases List.mem_append.mp hc with h | h
    · exact natDigits_no_newline _ c h
    · exact fracCharsGeneral_no_newline _ _ _ c h
  · rcases List.mem_append.mp hc with h | h
    · rcases List.mem_append.mp h with h | h
      · exact natDigits_no_newline _ c h
      · exact fracCharsGeneral_no_newline _ _ _ c h
    · exact expChars_no_newline _ _ c h

theorem finiteBody_no_newline (ff : FloatField) (prec : Nat) (showpoint uppercase : Bool)
    (x : ℚ) : ∀ c ∈ finiteBody ff prec showpoint uppercase x, c ≠ '\n' := by
  cases ff
  · exact generalBody_no_newline prec showpoint uppercase x
  · exact fixedBody_no_newline prec showpoint x
  · exact scientificBody_no_newline prec showpoint uppercase x

theorem doubleBody_no_newline (ff : FloatField) (prec : Nat) (showpoint uppercase : Bool)
    (x : Double) : ∀ c ∈ doubleBody ff prec showpoint uppercase x, c ≠ '\n' := by
  cases x with
  | finite q => exact finiteBody_no_newline ff prec showpoint uppercase q
  | negZero => exact finiteBody_no_newline ff prec showpoint uppercase 0
  | inf negative => cases uppercase <;> simp only [doubleBody] <;> decide
  | nan negative => cases uppercase <;> simp only [doubleBody] <;> decide

theorem doubleText_no_newline (ff : FloatField) (prec : Nat)
    (showpos showpoint uppercase : Bool) (x : Double) :
    '\n' ∉ doubleText ff prec showpos showpoint uppercase x := by
  intro h
  unfold doubleText at h
  rcases List.mem_append.mp h with h | h
  · exact signChars_no_newline _ _ _ h rfl
  · exact doubleBody_no_newline _ _ _ _ _ _ h rfl

theorem sizeToString_no_newline (s : Size) : '\n' ∉ sizeToString s := by
  cases s <;> decide

/-! ## The stages of an order -/

theorem pay_cash (amount : Double) (os : OStream) :
    CashPayment.pay amount os =
      Outcome.returned { os with
        out := os.out ++ (padText os.width os.fill os.adjustfield "Paid $".toList ++
          doubleText FloatField.fixed 2 os.showpos os.showpoint os.uppercase amount ++
          " in cash\n".toList),
        floatfield := FloatField.fixed, precision := 2, width := 0 } := by
  simp [CashPayment.pay, OStream.put, OStream.fixed, OStream.setprecision, OStream.putDouble,
    doubleText, padText_zero, padNumber_zero, List.append_assoc]

theorem pay_card (cardNumber : CppString) (amount : Double) (os : OStream)
    (h4 : 4 ≤ cardNumber.length) :
    CardPayment.pay cardNumber amount os =
      Outcome.returned { os with
        out := os.out ++ (padText os.width os.fill os.adjustfield "Charged $".toList ++
          doubleText FloatField.fixed 2 os.showpos os.showpoint os.uppercase amount ++
          " to card ending with ".toList ++ cardNumber.drop (cardNumber.length - 4) ++
          "\n".toList),
        floatfield := FloatField.fixed, precision := 2, width := 0 } := by
  have hpos : ¬ cardNumber.length < cardNumber.length - 4 := by omega
  simp [CardPayment.pay, substr, hpos, sizeSub_four_of_le _ h4, OStream.put, OStream.fixed,
    OStream.setprecision, OStream.putDouble, doubleText, padText_zero, padNumber_zero,
    List.append_assoc]

theorem pay_card_short (cardNumber : CppString) (amount : Double) (os : OStream)
    (h : cardNumber.length < 4) :
    CardPayment.pay cardNumber amount os =
      Outcome.thrown Exception.out_of_range { os with
        out := os.out ++ (padText os.width os.fill os.adjustfield "Charged $".toList ++
          doubleText FloatField.fixed 2 os.showpos os.showpoint os.uppercase amount ++
          " to card ending with ".toList),
        floatfield := FloatField.fixed, precision := 2, width := 0 } := by
  have hpos := (length_lt_sizeSub_four_iff _).mpr h
  simp [CardPayment.pay, substr, hpos, OStream.put, OStream.fixed,
    OStream.setprecision, OStream.putDouble, doubleText, padText_zero, padNumber_zero,
    List.append_assoc]

/-! ## Payment confirmations -/

/-- C7, as the claim states it, fails.  An infinite amount is written as "inf" and a NaN
as "nan", with no digit after a decimal point; and the text depends on format state that
`pay` does not set: under `showpos` the amount 2 is written "+2.00", and a pending field
width of 10 pads "Paid $" with four fill characters. -/
theorem cashPayment_pay_not_always_two_decimals :
    (CashPayment.pay (Double.inf false) coutInit).stream.out =
      "Paid $inf in cash\n".toList ∧
    (CashPayment.pay (Double.nan false) coutInit).stream.out =
      "Paid $nan in cash\n".toList ∧
    (CashPayment.pay (Double.finite 2) coutInit).stream.out =
      "Paid $2.00 in cash\n".toList ∧
    (CashPayment.pay (Double.finite 2) { coutInit with showpos := true }).stream.out =
      "Paid $+2.00 in cash\n".toList ∧
    (CashPayment.pay (Double.finite 2) { coutInit with width := 10 }).stream.out =
      "    Paid $2.00 in cash\n".toList := by
  refine ⟨?_, ?_, ?_, ?_, ?_⟩ <;> decide!

/-- C7, amended: for every finite amount `x`, `CashPayment::pay` returns and appends
"Paid $" (padded to the pending field width), the sign (`-` for a negative amount, `+`
under `showpos` otherwise), one or more integer digits, a point, exactly two digits, and
" in cash"; the digits denote `|x|` rounded to the nearest hundredth.  The text is the same
whatever the `floatfield` flag, the precision, `showpoint` and `uppercase` were before the
call.  Negative zero is written "-0.00". -/
theorem cashPayment_pay_finite_two_decimals (x : ℚ) (os : OStream) :
    (∃ ds : List Char, ∃ d1 d2 : Char,
      CashPayment.pay (Double.finite x) os =
        Outcome.returned { os with
          out := os.out ++ ((if os.adjustfield = AdjustField.left then
              "Paid $".toList ++ List.replicate (os.width - 6) os.fill
            else List.replicate (os.width - 6) os.fill ++ "Paid $".toList) ++
            (if x < 0 then ['-'] else if os.showpos = true then ['+'] else []) ++
            ds ++ ['.', d1, d2] ++ " in cash\n".toList),
          floatfield := FloatField.fixed, precision := 2, width := 0 } ∧
      ds ≠ [] ∧ (∀ c ∈ ds, c.isDigit = true) ∧ d1.isDigit = true ∧ d2.isDigit = true ∧
      |(|x| - (digitsValue (ds ++ [d1, d2]) : ℚ) / 100)| ≤ 1 / 200) ∧
    (∀ (ff : FloatField) (prec : Nat) (showpoint uppercase : Bool),
      (CashPayment.pay (Double.finite x) { os with
          floatfield := ff, precision := prec, showpoint := showpoint,
          uppercase := uppercase }).stream.out =
        (CashPayment.pay (Double.finite x) os).stream.out) ∧
    CashPayment.pay Double.negZero os =
      Outcome.returned { os with
        out := os.out ++ ((if os.adjustfield = AdjustField.left then
              "Paid $".toList ++ List.replicate (os.width - 6) os.fill
            else List.replicate (os.width - 6) os.fill ++ "Paid $".toList) ++
          "-0.00".toList ++ " in cash\n".toList),
        floatfield := FloatField.fixed, precision := 2, width := 0 } := by
  have hval : digitsValue (natDigits (fixedMantissa 2 x / 100) ++
      [digitChar (fixedMantissa 2 x / 10 % 10), digitChar (fixedMantissa 2 x % 10)]) =
      fixedMantissa 2 x := by
    have h10 : ∀ k : Nat, k % 10 < 10 := fun k => Nat.mod_lt _ (by norm_num)
    have happ : natDigits (fixedMantissa 2 x / 100) ++
        [digitChar (fixedMantissa 2 x / 10 % 10), digitChar (fixedMantissa 2 x % 10)] =
        (natDigits (fixedMantissa 2 x / 100) ++ [digitChar (fixedMantissa 2 x / 10 % 10)]) ++
          [digitChar (fixedMantissa 2 x % 10)] := by simp
    rw [happ, digitsValue_append_singleton, digitsValue_append_singleton,
      digitsValue_natDigits, digitChar_value _ (h10 _), digitChar_value _ (h10 _)]
    omega
  refine ⟨⟨natDigits (fixedMantissa 2 x / 100), digitChar (fixedMantissa 2 x / 10 % 10),
    digitChar (fixedMantissa 2 x % 10), ?_, natDigits_ne_nil _, natDigits_isDigit _,
    digitChar_isDigit _ (Nat.mod_lt _ (by norm_num)),
    digitChar_isDigit _ (Nat.mod_lt _ (by norm_num)), ?_⟩, ?_, ?_⟩
  · rw [pay_cash, pad_paid]
    by_cases hx : x < 0 <;>
      simp [doubleText, signChars, Double.isNegative, doubleBody, finiteBody, fixedBody,
        fracChars, fixedDigits_two, hx, List.append_assoc]
  · rw [hval]
    have hc := fixedMantissa_close 2 x
    rw [abs_le] at hc ⊢
    constructor <;> linarith [hc.1, hc.2]
  · intro ff prec showpoint uppercase
    rw [pay_cash, pay_cash]
    simp [Outcome.stream, doubleText, doubleBody, finiteBody, fixedBody, fracChars]
  · rw [pay_cash, pad_paid]
    have h0 : fixedBody 2 os.showpoint 0 = "0.00".toList := by
      cases os.showpoint <;> decide!
    simp [doubleText, signChars, Double.isNegative, doubleBody, finiteBody, h0]

/-- C4: for a card number of at least 4 characters, `CardPayment::pay` appends
"Charged $" (padded to the pending field width), the amount in fixed notation with
precision 2, " to card ending with ", the last 4 characters of the number and a newline;
those 4 characters are a suffix of the number.  For "1277448787638764" and 4.05 the text
shows 4.05 and 8764. -/
theorem cardPayment_pay_last_four (s : CppString) (amount : Double) (os : OStream)
    (h4 : 4 ≤ s.length) :
    (Payment.CardPayment s).pay amount os =
      Outcome.returned { os with
        out := os.out ++ ((if os.adjustfield = AdjustField.left then
              "Charged $".toList ++ List.replicate (os.width - 9) os.fill
            else List.replicate (os.width - 9) os.fill ++ "Charged $".toList) ++
          doubleText FloatField.fixed 2 os.showpos os.showpoint os.uppercase amount ++
          " to card ending with ".toList ++ s.drop (s.length - 4) ++ "\n".toList),
        floatfield := FloatField.fixed, precision := 2, width := 0 } ∧
    (s.drop (s.length - 4)).length = 4 ∧
    s.take (s.length - 4) ++ s.drop (s.length - 4) = s ∧
    ((Payment.CardPayment "1277448787638764".toList).pay (Double.finite 4.05)
        coutInit).stream.out =
      "Charged $4.05 to card ending with 8764\n".toList := by
  refine ⟨by rw [pad_charged]; exact pay_card s amount os h4, ?_,
    List.take_append_drop _ _, by decide!⟩
  rw [List.length_drop]; omega

/-- C4 at the card number of `main`, on a fresh stream. -/
theorem cardPayment_pay_last_four_witness :
    (Payment.CardPayment "1277448787638764".toList).pay (Double.finite 4.05) coutInit =
      Outcome.returned { coutInit with
        out := "Charged $4.05 to card ending with 8764\n".toList,
        floatfield := FloatField.fixed, precision := 2, width := 0 } :=
  ((cardPayment_pay_last_four "1277448787638764".toList (Double.finite 4.05) coutInit
    (by decide)).1).trans (by decide!)

/-- C10: `CardPayment::pay` returns exactly when the card number has at least 4
characters, and then it has written the whole confirmation, ending with the last 4
characters of the number and a newline.  For a shorter number `size() - 4` wraps around
to `size() + 2^64 - 4`, which is past the end, `substr` raises `out_of_range`, and the
stream then holds the text up to "to card ending with " and no character of the
number. -/
theorem cardPayment_pay_completes_iff (s : CppString) (amount : Double) (os : OStream) :
    (((Payment.CardPayment s).pay amount os).completed = true ↔ 4 ≤ s.length) ∧
    (4 ≤ s.length →
      (Payment.CardPayment s).pay amount os =
        Outcome.returned { os with
          out := os.out ++ ((if os.adjustfield = AdjustField.left then
              "Charged $".toList ++ List.replicate (os.width - 9) os.fill
            else List.replicate (os.width - 9) os.fill ++ "Charged $".toList) ++
            doubleText FloatField.fixed 2 os.showpos os.showpoint os.uppercase amount ++
            " to card ending with ".toList ++ s.drop (s.length - 4) ++ "\n".toList),
          floatfield := FloatField.fixed, precision := 2, width := 0 }) ∧
    (s.length < 4 →
      sizeSub s.length 4 = s.length + SIZE_MODULUS - 4 ∧
      s.length < sizeSub s.length 4 ∧
      (Payment.CardPayment s).pay amount os =
        Outcome.thrown Exception.out_of_range { os with
          out := os.out ++ ((if os.adjustfield = AdjustField.left then
              "Charged $".toList ++ List.replicate (os.width - 9) os.fill
            else List.replicate (os.width - 9) os.fill ++ "Charged $".toList) ++
            doubleText FloatField.fixed 2 os.showpos os.showpoint os.uppercase amount ++
            " to card ending with ".toList),
          floatfield := FloatField.fixed, precision := 2, width := 0 }) := by
  refine ⟨?_, fun h4 => by rw [pad_charged]; exact pay_card s amount os h4, fun hlt =>
    ⟨sizeSub_four_of_lt _ hlt, (length_lt_sizeSub_four_iff _).mpr hlt,
      by rw [pad_charged]; exact pay_card_short s amount os hlt⟩⟩
  by_cases h4 : 4 ≤ s.length
  · have := pay_card s amount os h4
    simp only [Payment.pay, this, Outcome.completed, h4]
  · have := pay_card_short s amount os (by omega)
    simp only [Payment.pay, this, Outcome.completed, h4]
    simp

/-- C10 at the three-character card number "123", which raises, and at the
four-character card number "1234", which completes with its confirmation. -/
theorem cardPayment_pay_completes_iff_witness :
    ("123".toList.length < 4 ∧
      (Payment.CardPayment "123".toList).pay (Double.finite 2.00) coutInit =
        Outcome.thrown Exception.out_of_range { coutInit with
          out := "Charged $2.00 to card ending with ".toList,
          floatfield := FloatField.fixed, precision := 2, width := 0 }) ∧
    (4 ≤ "1234".toList.length ∧
      (Payment.CardPayment "1234".toList).pay (Double.finite 2.00) coutInit =
        Outcome.returned { coutInit with
          out := "Charged $2.00 to card ending with 1234\n".toList,
          floatfield := FloatField.fixed, precision := 2, width := 0 }) :=
  ⟨⟨by decide,
    (((cardPayment_pay_completes_iff "123".toList (Double.finite 2.00) coutInit).2.2
      (by decide)).2.2).trans (by decide!)⟩,
   ⟨by decide,
    ((cardPayment_pay_completes_iff "1234".toList (Double.finite 2.00) coutInit).2.1
      (by decide)).trans (by decide!)⟩⟩

/-! ## Orders -/

set_option maxRecDepth 8000 in
theorem orderCoffee_espresso (shop : CoffeeShop) (p : ℚ) (os : OStream)
    (hpm : shop.paymentMethod = Payment.CashPayment ∨
      ∃ card, shop.paymentMethod = Payment.CardPayment card ∧ 4 ≤ card.length) :
    shop.orderCoffee (Espresso p) os =
      Outcome.returned { os with
        out := os.out ++
          (joinLines (orderLines shop (Espresso p) espressoSteps os) ++ ['\n']),
        floatfield := FloatField.fixed, precision := 2, width := 0 } := by
  obtain ⟨shopName, pm⟩ := shop
  simp only at hpm
  rcases hpm with rfl | ⟨card, rfl, h4⟩
  · simp [CoffeeShop.orderCoffee, Coffee.prepare, Espresso, Payment.pay, pay_cash,
      OStream.put, OStream.putDouble, padText_zero, padNumber_zero, orderLines, joinLines,
      welcomeLine, summaryLine, confirmationLine, amountText, thanksLine, espressoSteps,
      doubleText, Coffee.getSize, Coffee.getName, List.append_assoc]
  · simp [CoffeeShop.orderCoffee, Coffee.prepare, Espresso, Payment.pay, pay_card _ _ _ h4,
      OStream.put, OStream.putDouble, padText_zero, padNumber_zero, orderLines, joinLines,
      welcomeLine, summaryLine, confirmationLine, amountText, thanksLine, espressoSteps,
      doubleText, Coffee.getSize, Coffee.getName, List.append_assoc]

set_option maxRecDepth 8000 in
theorem orderCoffee_latte (shop : CoffeeShop) (p : ℚ) (s : Size) (os : OStream)
    (hpm : shop.paymentMethod = Payment.CashPayment ∨
      ∃ card, shop.paymentMethod = Payment.CardPayment card ∧ 4 ≤ card.length) :
    shop.orderCoffee (Latte p s) os =
      Outcome.returned { os with
        out := os.out ++
          (joinLines (orderLines shop (Latte p s) (latteSteps s) os) ++ ['\n']),
        floatfield := FloatField.fixed, precision := 2, width := 0 } := by
  obtain ⟨shopName, pm⟩ := shop
  simp only at hpm
  rcases hpm with rfl | ⟨card, rfl, h4⟩
  · simp [CoffeeShop.orderCoffee, Coffee.prepare, Latte, Payment.pay, pay_cash,
      OStream.put, OStream.putDouble, padText_zero, padNumber_zero, orderLines, joinLines,
      welcomeLine, summaryLine, confirmationLine, amountText, thanksLine, latteSteps,
      doubleText, Coffee.getSize, Coffee.getName, List.append_assoc]
  · simp [CoffeeShop.orderCoffee, Coffee.prepare, Latte, Payment.pay, pay_card _ _ _ h4,
      OStream.put, OStream.putDouble, padText_zero, padNumber_zero, orderLines, joinLines,
      welcomeLine, summaryLine, confirmationLine, amountText, thanksLine, latteSteps,
      doubleText, Coffee.getSize, Coffee.getName, List.append_assoc]

theorem espressoSteps_ok : ∀ l ∈ espressoSteps, l ≠ [] ∧ '\n' ∉ l := by
  decide

theorem latteSteps_ok (s : Size) : ∀ l ∈ latteSteps s, l ≠ [] ∧ '\n' ∉ l := by
  cases s <;> decide

theorem confirmationLine_ok (pm : Payment) (os : OStream) (amount : Double)
    (hcard : ∀ card, pm = Payment.CardPayment card →
      '\n' ∉ card.drop (card.length - 4)) :
    confirmationLine pm os amount ≠ [] ∧ '\n' ∉ confirmationLine pm os amount := by
  have hfix := doubleText_no_newline FloatField.fixed 2 os.showpos os.showpoint
    os.uppercase amount
  cases pm with
  | CashPayment =>
    simp [confirmationLine, amountText, hfix]
  | CardPayment card =>
    have hdrop := hcard card rfl
    simp [confirmationLine, amountText, hfix, hdrop]

theorem orderLines_ok (shop : CoffeeShop) (c : Coffee) (steps : List CppString)
    (os : OStream) (hwelcome : '\n' ∉ welcomeLine os shop.shopName)
    (hname : '\n' ∉ c.name)
    (hcard : ∀ card, shop.paymentMethod = Payment.CardPayment card →
      '\n' ∉ card.drop (card.length - 4))
    (hsteps : ∀ l ∈ steps, l ≠ [] ∧ '\n' ∉ l) :
    ∀ l ∈ orderLines shop c steps os, l ≠ [] ∧ '\n' ∉ l := by
  have hfmt := doubleText_no_newline os.floatfield os.precision os.showpos os.showpoint
    os.uppercase (Double.finite c.getPrice)
  have hsize := sizeToString_no_newline c.size
  have hconf := confirmationLine_ok shop.paymentMethod os (Double.finite c.getPrice) hcard
  intro l hl
  unfold orderLines at hl
  simp only [List.mem_append, List.mem_cons, List.mem_singleton, List.not_mem_nil,
    or_false] at hl
  rcases hl with ((rfl | rfl) | h) | (rfl | rfl)
  · refine ⟨?_, hwelcome⟩
    simp [welcomeLine]
  · simp [summaryLine, Coffee.getSize, Coffee.getName, hfmt, hsize, hname]
  · exact hsteps l h
  · exact hconf
  · decide

theorem emitted_lines (run : Outcome) (os os1 : OStream) (ls : List CppString)
    (hrun : run = Outcome.returned os1)
    (hout : os1.out = os.out ++ (joinLines ls ++ ['\n']))
    (hok : ∀ l ∈ ls, l ≠ [] ∧ '\n' ∉ l) :
    nonEmptyLines (run.stream.out.drop os.out.length) = ls := by
  rw [hrun]
  simp only [Outcome.stream, hout, List.drop_left]
  exact nonEmptyLines_joinLines _ hok

/-- C2, as the claim states it, fails: a shop name or a card number is written as it is,
so a newline inside it splits a line.  The espresso order at the shop named "A", newline,
"B" has 8 non-empty lines, the welcome text taking two of them, and not the 7 lines
welcome, summary, three steps, confirmation, thanks; the same holds with the card number
"12345", newline, "78", whose last four characters contain the newline. -/
theorem orderCoffee_newline_in_name_splits_line :
    nonEmptyLines ((CoffeeShop.orderCoffee ⟨"A\nB".toList, Payment.CashPayment⟩
        (Espresso 2.0) coutInit).stream.out.drop coutInit.out.length) =
      ["Welcome to A".toList, "B!".toList, "Order: Small Espresso - $2".toList,
       "Grinding coffee beans...".toList, "Brewing a shot of espresso...".toList,
       "Pouring into a small cup.".toList, "Paid $2.00 in cash".toList,
       "Thank you for your purchase!".toList] ∧
    nonEmptyLines ((CoffeeShop.orderCoffee ⟨"A\nB".toList, Payment.CashPayment⟩
        (Espresso 2.0) coutInit).stream.out.drop coutInit.out.length) ≠
      [welcomeLine coutInit "A\nB".toList, summaryLine (Espresso 2.0) coutInit] ++
        espressoSteps ++
        [confirmationLine Payment.CashPayment coutInit
          (Double.finite (Espresso 2.0).getPrice), thanksLine] ∧
    nonEmptyLines ((CoffeeShop.orderCoffee
        ⟨"Ye New Coffee".toList, Payment.CardPayment "12345\n78".toList⟩
        (Espresso 2.0) coutInit).stream.out.drop coutInit.out.length) =
      ["Welcome to Ye New Coffee!".toList, "Order: Small Espresso - $2".toList,
       "Grinding coffee beans...".toList, "Brewing a shot of espresso...".toList,
       "Pouring into a small cup.".toList, "Charged $2.00 to card ending with 5".toList,
       "78".toList, "Thank you for your purchase!".toList] := by
  refine ⟨?_, ?_, ?_⟩ <;> decide!

/-- C2, amended: for a shop paying in cash or by a card whose number has at least 4
characters, when the welcome line (the shop name, with the padding a pending field width
puts before it) and the last four characters of the card number contain no newline,
`orderCoffee` returns, and the non-empty lines of the text it emits are, in this order,
the welcome line, the summary line, the preparation lines (3 for an espresso, 5 for a
latte), the confirmation for the price `getPrice()`, and the thank-you line.  The text
itself is these lines, each followed by a newline, and one more newline. -/
theorem orderCoffee_line_sequence (shop : CoffeeShop) (p : ℚ) (s : Size) (os : OStream)
    (hpm : shop.paymentMethod = Payment.CashPayment ∨
      ∃ card, shop.paymentMethod = Payment.CardPayment card ∧ 4 ≤ card.length)
    (hwelcome : '\n' ∉ welcomeLine os shop.shopName)
    (hcard : ∀ card, shop.paymentMethod = Payment.CardPayment card →
      '\n' ∉ card.drop (card.length - 4)) :
    espressoSteps.length = 3 ∧ (latteSteps s).length = 5 ∧
    shop.orderCoffee (Espresso p) os =
      Outcome.returned { os with
        out := os.out ++
          (joinLines ([welcomeLine os shop.shopName, summaryLine (Espresso p) os] ++
            espressoSteps ++
            [confirmationLine shop.paymentMethod os (Double.finite (Espresso p).getPrice),
             thanksLine]) ++ ['\n']),
        floatfield := FloatField.fixed, precision := 2, width := 0 } ∧
    shop.orderCoffee (Latte p s) os =
      Outcome.returned { os with
        out := os.out ++
          (joinLines ([welcomeLine os shop.shopName, summaryLine (Latte p s) os] ++
            latteSteps s ++
            [confirmationLine shop.paymentMethod os (Double.finite (Latte p s).getPrice),
             thanksLine]) ++ ['\n']),
        floatfield := FloatField.fixed, precision := 2, width := 0 } ∧
    nonEmptyLines ((shop.orderCoffee (Espresso p) os).stream.out.drop os.out.length) =
      [welcomeLine os shop.shopName, summaryLine (Espresso p) os] ++ espressoSteps ++
        [confirmationLine shop.paymentMethod os (Double.finite (Espresso p).getPrice),
         thanksLine] ∧
    nonEmptyLines ((shop.orderCoffee (Latte p s) os).stream.out.drop os.out.length) =
      [welcomeLine os shop.shopName, summaryLine (Latte p s) os] ++ latteSteps s ++
        [confirmationLine shop.paymentMethod os (Double.finite (Latte p s).getPrice),
         thanksLine] := by
  have he := orderCoffee_espresso shop p os hpm
  have hl := orderCoffee_latte shop p s os hpm
  refine ⟨rfl, rfl, he, hl, ?_, ?_⟩
  · exact emitted_lines _ os _ _ he rfl
      (orderLines_ok shop (Espresso p) espressoSteps os hwelcome
        (by show '\n' ∉ "Espresso".toList; decide) hcard espressoSteps_ok)
  · exact emitted_lines _ os _ _ hl rfl
      (orderLines_ok shop (Latte p s) (latteSteps s) os hwelcome
        (by show '\n' ∉ "Latte".toList; decide) hcard (latteSteps_ok s))

/-- C2, amended, at the second order of `main`: a default latte of base price 3.00 at
"Ye New Coffee", paid with the card "1277448787638764", on a fresh stream. -/
theorem orderCoffee_line_sequence_witness :
    nonEmptyLines ((CoffeeShop.orderCoffee
        ⟨"Ye New Coffee".toList, Payment.CardPayment "1277448787638764".toList⟩
        (Latte 3.00 Size.MEDIUM) coutInit).stream.out.drop coutInit.out.length) =
      ["Welcome to Ye New Coffee!".toList, "Order: Medium Latte - $4.05".toList,
       "Steaming milk...".toList, "Grinding coffee beans...".toList,
       "Brewing a shot of espresso...".toList,
       "Combining espresso with milk and adding foam.".toList,
       "Pouring into a Medium cup.".toList,
       "Charged $4.05 to card ending with 8764".toList,
       "Thank you for your purchase!".toList] :=
  ((orderCoffee_line_sequence
      ⟨"Ye New Coffee".toList, Payment.CardPayment "1277448787638764".toList⟩
      3.00 Size.MEDIUM coutInit
      (Or.inr ⟨"1277448787638764".toList, rfl, by decide⟩)
      (by decide) (by intro card h; cases h; decide)).2.2.2.2.2).trans (by decide!)

/-- C3: the text `main` writes.  The summary line of the first order shows the price of
`Espresso(2.0)` as "2", without decimals: the stream is still in its initial state there.
The second order shows "4.05" because the first payment left `fixed` and precision 2 set. -/
theorem main_output :
    main = Outcome.returned { coutInit with
      out :=
        ("Welcome to Ye Olde Coffee!\nOrder: Small Espresso - $2\n" ++
         "Grinding coffee beans...\nBrewing a shot of espresso...\nPouring into a small cup.\n" ++
         "Paid $2.00 in cash\nThank you for your purchase!\n\n" ++
         "Welcome to Ye New Coffee!\nOrder: Medium Latte - $4.05\n" ++
         "Steaming milk...\nGrinding coffee beans...\nBrewing a shot of espresso...\n" ++
         "Combining espresso with milk and adding foam.\nPouring into a Medium cup.\n" ++
         "Charged $4.05 to card ending with 8764\nThank you for your purchase!\n\n").toList,
      floatfield := FloatField.fixed, precision := 2 } := by
  decide!

/-- C9: the same order, `Espresso(2.0)` at "Ye Olde Coffee" paid in cash, emits one text
when it is the first order of the program and another when it is placed again right
after: the price in the summary line is "2" the first time and "2.00" the second time,
because the first payment leaves `fixed` and precision 2 set on the stream. -/
theorem orderCoffee_text_depends_on_earlier_orders :
    (CoffeeShop.orderCoffee ⟨"Ye Olde Coffee".toList, Payment.CashPayment⟩ (Espresso 2.0)
        coutInit) =
      Outcome.returned { coutInit with
        out :=
          ("Welcome to Ye Olde Coffee!\nOrder: Small Espresso - $2\n" ++
           "Grinding coffee beans...\nBrewing a shot of espresso...\n" ++
           "Pouring into a small cup.\nPaid $2.00 in cash\n" ++
           "Thank you for your purchase!\n\n").toList,
        floatfield := FloatField.fixed, precision := 2 } ∧
    (CoffeeShop.orderCoffee ⟨"Ye Olde Coffee".toList, Payment.CashPayment⟩ (Espresso 2.0)
        (CoffeeShop.orderCoffee ⟨"Ye Olde Coffee".toList, Payment.CashPayment⟩ (Espresso 2.0)
          coutInit).stream) =
      Outcome.returned { coutInit with
        out :=
          ("Welcome to Ye Olde Coffee!\nOrder: Small Espresso - $2\n" ++
           "Grinding coffee beans...\nBrewing a shot of espresso...\n" ++
           "Pouring into a small cup.\nPaid $2.00 in cash\n" ++
           "Thank you for your purchase!\n\n" ++
           "Welcome to Ye Olde Coffee!\nOrder: Small Espresso - $2.00\n" ++
           "Grinding coffee beans...\nBrewing a shot of espresso...\n" ++
           "Pouring into a small cup.\nPaid $2.00 in cash\n" ++
           "Thank you for your purchase!\n\n").toList,
        floatfield := FloatField.fixed, precision := 2 } ∧
    (CoffeeShop.orderCoffee ⟨"Ye Olde Coffee".toList, Payment.CashPayment⟩ (Espresso 2.0)
        (CoffeeShop.orderCoffee ⟨"Ye Olde Coffee".toList, Payment.CashPayment⟩ (Espresso 2.0)
          coutInit).stream).stream.out.drop
        (CoffeeShop.orderCoffee ⟨"Ye Olde Coffee".toList, Payment.CashPayment⟩ (Espresso 2.0)
          coutInit).stream.out.length ≠
      (CoffeeShop.orderCoffee ⟨"Ye Olde Coffee".toList, Payment.CashPayment⟩ (Espresso 2.0)
        coutInit).stream.out.drop coutInit.out.length := by
  refine ⟨?_, ?_, ?_⟩ <;> decide!

end SOLID
